import Mathlib

/-!
# Report repository and convenience container of nonodo

A shallow embedding of `internal/model/report_repository.go` and
`internal/convenience/container.go`.

* Go functions become Lean functions with the same names.  A Go call either
  returns its results or panics (`Go`); a Go `error` result is an
  `Option Error` (`none` is the nil error).
* Pointers that the code dereferences are `Option`s; dereferencing `none`
  panics, as in Go.
* The SQL store behind `sqlx.DB` is an explicit value `Db`: the contents of the
  `reports` table, the statements the store refuses, and a log of everything
  sent to it.  Statement text is tokenised, parsed and executed by a small
  engine that covers the SQL this repository issues.
-/

namespace Nonodo

/-! ## Go runtime -/

/-- Outcome of running a Go function: it returns its results, or it panics. -/
inductive Go (α : Type) where
  | ret (a : α)
  | panic (msg : String)
deriving DecidableEq

/-- A Go `error` value, identified with its message. -/
abbrev Error := String

/-- Message of the run-time panic raised by dereferencing a nil pointer. -/
def nilDeref : String := "runtime error: invalid memory address or nil pointer dereference"

/-- A value bound to a `?` placeholder (`interface{}` in the source). -/
inductive Arg where
  | str (s : String)
  | int (n : Int)
deriving DecidableEq

/-- Modelled from the spec: the struct `model.ConvenienceFilter` is declared
outside the sources at hand.  A filter is "a field name ... and an optional
equality value"; the repository reads `Field` and `Eq`, both through a
pointer (`*filter.Field`, `filter.Eq != nil`), so both are `*string`. -/
structure ConvenienceFilter where
  Field : Option String
  Eq : Option String
deriving DecidableEq

/-- The constant `INPUT_INDEX`. -/
def INPUT_INDEX : String := "InputIndex"

/-- Go `strings.Join`. -/
def stringsJoin : List String → String → String
  | [], _ => ""
  | [a], _ => a
  | a :: b :: rest, sep => a ++ sep ++ stringsJoin (b :: rest) sep

/-! ## transformToQuery -/

/-- The `for _, filter := range filter` loop of `transformToQuery`, started with
the accumulated `where` terms and `args`.  `Except.error` is the early
`return "", nil, err`. -/
def transformLoop (wher : List String) (args : List Arg) :
    List (Option ConvenienceFilter) → Go (Except Error (List String × List Arg))
  | [] => .ret (.ok (wher, args))
  | none :: _ => .panic nilDeref
  | some filter :: rest =>
    match filter.Field with
    | none => .panic nilDeref
    | some field =>
      if field = "OutputIndex" then
        match filter.Eq with
        | some v => transformLoop (wher ++ ["output_index = ?"]) (args ++ [Arg.str v]) rest
        | none => .ret (.error "operation not implemented")
      else if field = INPUT_INDEX then
        match filter.Eq with
        | some v => transformLoop (wher ++ ["input_index = ?"]) (args ++ [Arg.str v]) rest
        | none => .ret (.error "operation not implemented")
      else
        .ret (.error ("unexpected field " ++ field))

/-- The function `transformToQuery`: the `WHERE` fragment, the bound arguments
and the error. -/
def transformToQuery (filter : List (Option ConvenienceFilter)) :
    Go (String × List Arg × Option Error) :=
  let query := if filter.length > 0 then "" ++ "WHERE " else ""
  match transformLoop [] [] filter with
  | .panic msg => .panic msg
  | .ret (.error e) => .ret ("", [], some e)
  | .ret (.ok (wher, args)) => .ret (query ++ stringsJoin wher " and ", args, none)

/-! ## Integer conversions -/

/-- Go conversion `int(x)` of a `uint64` (two's complement, 64 bits). -/
def intOfUint64 (n : Nat) : Int :=
  if n % 2 ^ 64 < 2 ^ 63 then ((n % 2 ^ 64 : Nat) : Int)
  else ((n % 2 ^ 64 : Nat) : Int) - ((2 ^ 64 : Nat) : Int)

/-- Go conversion `uint64(x)` of an `int`. -/
def uint64OfInt (i : Int) : Nat := (i % ((2 ^ 64 : Nat) : Int)).toNat

/-- Decimal digits of a natural number, most significant first; `fuel` bounds
the number of digits. -/
def decimalDigits : Nat → Nat → List Char → List Char
  | 0, _, acc => acc
  | fuel + 1, n, acc =>
    let acc1 := Char.ofNat (48 + n % 10) :: acc
    if n / 10 = 0 then acc1 else decimalDigits fuel (n / 10) acc1

/-- Decimal string of an integer: `fmt.Sprintf("%d", n)`. -/
def sprintfD (n : Int) : String :=
  let ds := decimalDigits (n.natAbs + 1) n.natAbs []
  if n < 0 then String.mk ('-' :: ds) else String.mk ds

/-- The decimal string of an integer, written from the words "decimal string of
n" and not from the code: a minus sign when the number is negative, then the
decimal digits of its absolute value, most significant first (the digits are
`Nat.digits 10`, which lists them least significant first); zero is "0". -/
def decimalString (n : Int) : String :=
  String.mk ((if n < 0 then ['-'] else []) ++
    (if n = 0 then ['0'] else ((Nat.digits 10 n.natAbs).reverse.map Nat.digitChar)))

/-! ## Hexadecimal payload encoding (`common.Bytes2Hex`, `common.Hex2Bytes`) -/

/-- One byte of a `[]byte`. -/
abbrev Byte := Fin 256

/-- The table `hextable` of `encoding/hex`. -/
def hextable : String := "0123456789abcdef"

/-- The lookup `hextable[n]`. -/
def hexDigit (n : Nat) : Char := hextable.data.getD n '0'

/-- The lookup `reverseHexTable[c]` of `encoding/hex`; `none` stands for the
entry `0xff` of a character that is not a hexadecimal digit. -/
def fromHexChar (c : Char) : Option (Fin 16) :=
  let v := c.toNat
  if h : 48 ≤ v ∧ v ≤ 57 then some ⟨v - 48, by omega⟩
  else if h : 97 ≤ v ∧ v ≤ 102 then some ⟨v - 97 + 10, by omega⟩
  else if h : 65 ≤ v ∧ v ≤ 70 then some ⟨v - 65 + 10, by omega⟩
  else none

/-- Characters written by `hex.EncodeToString`: two digits per byte. -/
def encodeHex : List Byte → List Char
  | [] => []
  | v :: rest => hexDigit (v.val / 16) :: hexDigit (v.val % 16) :: encodeHex rest

/-- The function `common.Bytes2Hex`. -/
def Bytes2Hex (d : List Byte) : String := String.mk (encodeHex d)

/-- The loop of `hex.Decode`: the bytes decoded before the first character that
is not a hexadecimal digit or before a trailing odd character. -/
def decodeHex : List Char → List Byte
  | p :: q :: rest =>
    match fromHexChar p, fromHexChar q with
    | some a, some b => ⟨a.val * 16 + b.val, by omega⟩ :: decodeHex rest
    | _, _ => []
  | _ => []

/-- The function `common.Hex2Bytes`, which drops the error of
`hex.DecodeString` and keeps the decoded prefix. -/
def Hex2Bytes (str : String) : List Byte := decodeHex str.data

/-! ## The store: the `reports` table behind `sqlx.DB` -/

/-- Columns of the table `reports`, in the order of `CreateTables`. -/
inductive Col where
  | output_index
  | payload
  | input_index
deriving DecidableEq

/-- A row of the table `reports`. -/
structure Row where
  output_index : Int
  payload : String
  input_index : Int
deriving DecidableEq

/-- A value of a result row. -/
inductive Val where
  | int (n : Int)
  | text (s : String)
deriving DecidableEq

/-- Value of a column in a row. -/
def Row.get (r : Row) : Col → Val
  | .output_index => .int r.output_index
  | .payload => .text r.payload
  | .input_index => .int r.input_index

/-- Lexical tokens of a statement. -/
inductive Token where
  | word (w : String)
  | comma
  | lparen
  | rparen
  | star
  | eq
  | qmark
deriving DecidableEq

/-- White space between tokens. -/
def isSpace (c : Char) : Bool := c = ' ' || c = '\n' || c = '\t' || c = '\r'

/-- Single-character tokens. -/
def symOf (c : Char) : Option Token :=
  if c = ',' then some .comma
  else if c = '(' then some .lparen
  else if c = ')' then some .rparen
  else if c = '*' then some .star
  else if c = '=' then some .eq
  else if c = '?' then some .qmark
  else none

/-- Close the word collected so far (in reverse). -/
def flushWord (acc : List Char) (ts : List Token) : List Token :=
  match acc with
  | [] => ts
  | _ :: _ => Token.word (String.mk acc.reverse) :: ts

/-- Tokeniser loop; `acc` is the current word, reversed. -/
def tokenizeAux : List Char → List Char → List Token
  | acc, [] => flushWord acc []
  | acc, c :: cs =>
    if isSpace c then flushWord acc (tokenizeAux [] cs)
    else
      match symOf c with
      | some t => flushWord acc (t :: tokenizeAux [] cs)
      | none => tokenizeAux (c :: acc) cs

/-- Tokens of a statement text. -/
def tokenize (q : String) : List Token := tokenizeAux [] q.data

/-- A `LIMIT` or `OFFSET` operand: a placeholder or a literal. -/
inductive Bound where
  | param
  | lit (n : Nat)
deriving DecidableEq

/-- Result columns of a select. -/
inductive Proj where
  | count
  | cols (cs : List Col)
deriving DecidableEq

/-- A parsed `SELECT ... FROM reports`. -/
structure Select where
  proj : Proj
  conds : List Col
  ordered : Bool
  limit : Option Bound
  offset : Option Bound
deriving DecidableEq

/-- A parsed statement. -/
inductive Stmt where
  | insert (cols : List Col) (params : Nat)
  | select (s : Select)
deriving DecidableEq

/-- Column named by a word. -/
def colOf (w : String) : Option Col :=
  if w = "input_index" then some .input_index
  else if w = "output_index" then some .output_index
  else if w = "payload" then some .payload
  else none

/-- Remove a fixed token sequence from the front. -/
def stripTokens : List Token → List Token → Option (List Token)
  | [], ts => some ts
  | _ :: _, [] => none
  | p :: ps, t :: ts => if p = t then stripTokens ps ts else none

/-- Grammar `col (, col)*`. -/
def parseCols : List Token → Option (List Col × List Token)
  | .word w :: .comma :: rest =>
    match colOf w, parseCols rest with
    | some c, some (cs, r) => some (c :: cs, r)
    | _, _ => none
  | .word w :: rest =>
    match colOf w with
    | some c => some ([c], rest)
    | none => none
  | _ => none

/-- Grammar `? (, ?)*`; the number of placeholders. -/
def parseParams : List Token → Option (Nat × List Token)
  | .qmark :: .comma :: rest =>
    match parseParams rest with
    | some (n, r) => some (n + 1, r)
    | none => none
  | .qmark :: rest => some (1, rest)
  | _ => none

/-- Grammar `col = ? (and col = ?)*` over the integer columns. -/
def parseConds : List Token → Option (List Col × List Token)
  | .word w :: .eq :: .qmark :: .word a :: rest =>
    match colOf w with
    | none => none
    | some .payload => none
    | some c =>
      if a = "and" then
        match parseConds rest with
        | some (cs, r) => some (c :: cs, r)
        | none => none
      else some ([c], .word a :: rest)
  | .word w :: .eq :: .qmark :: rest =>
    match colOf w with
    | none => none
    | some .payload => none
    | some c => some ([c], rest)
  | _ => none

/-- Optional `WHERE` clause. -/
def parseWhere : List Token → Option (List Col × List Token)
  | .word w :: rest => if w = "WHERE" then parseConds rest else some ([], .word w :: rest)
  | ts => some ([], ts)

/-- Tokens of `ORDER BY input_index ASC, output_index ASC`. -/
def orderTokens : List Token :=
  [.word "ORDER", .word "BY", .word "input_index", .word "ASC", .comma,
   .word "output_index", .word "ASC"]

/-- Optional `ORDER BY input_index ASC, output_index ASC`. -/
def parseOrder : List Token → Option (Bool × List Token)
  | .word w :: rest =>
    if w = "ORDER" then
      match stripTokens orderTokens (.word w :: rest) with
      | some r => some (true, r)
      | none => none
    else some (false, .word w :: rest)
  | ts => some (false, ts)

/-- Value of a decimal digit string. -/
def parseNat : List Char → Nat → Option Nat
  | [], acc => some acc
  | c :: cs, acc =>
    if 48 ≤ c.toNat ∧ c.toNat ≤ 57 then parseNat cs (acc * 10 + (c.toNat - 48)) else none

/-- A `LIMIT` or `OFFSET` operand. -/
def parseBound : List Token → Option (Bound × List Token)
  | .qmark :: rest => some (.param, rest)
  | .word w :: rest =>
    match w.data with
    | [] => none
    | c :: cs =>
      match parseNat (c :: cs) 0 with
      | some n => some (.lit n, rest)
      | none => none
  | _ => none

/-- Optional `OFFSET` clause. -/
def parseOffset : List Token → Option (Option Bound × List Token)
  | .word w :: rest =>
    if w = "OFFSET" then
      match parseBound rest with
      | some (b, r) => some (some b, r)
      | none => none
    else some (none, .word w :: rest)
  | ts => some (none, ts)

/-- Optional `LIMIT` clause with its optional `OFFSET`. -/
def parseLimit : List Token → Option (Option Bound × Option Bound × List Token)
  | .word w :: rest =>
    if w = "LIMIT" then
      match parseBound rest with
      | some (b, r) =>
        match parseOffset r with
        | some (o, r1) => some (some b, o, r1)
        | none => none
      | none => none
    else some (none, none, .word w :: rest)
  | ts => some (none, none, ts)

/-- Result columns: `count(*)` or a column list. -/
def parseProj : List Token → Option (Proj × List Token)
  | .word w :: .lparen :: .star :: .rparen :: rest =>
    if w = "count" then some (.count, rest) else none
  | ts =>
    match parseCols ts with
    | some (cs, r) => some (.cols cs, r)
    | none => none

/-- The clauses after `SELECT proj FROM reports`. -/
def parseTail (proj : Proj) (ts : List Token) : Option Stmt :=
  match parseWhere ts with
  | none => none
  | some (conds, t1) =>
    match parseOrder t1 with
    | none => none
    | some (ordered, t2) =>
      match parseLimit t2 with
      | some (limit, offset, []) => some (.select ⟨proj, conds, ordered, limit, offset⟩)
      | _ => none

/-- Parse `SELECT proj FROM reports [WHERE ...] [ORDER BY ...] [LIMIT ... [OFFSET ...]]`. -/
def parseSelect (ts : List Token) : Option Stmt :=
  match parseProj ts with
  | none => none
  | some (proj, t1) =>
    match stripTokens [.word "FROM", .word "reports"] t1 with
    | none => none
    | some t2 => parseTail proj t2

/-- Parse `INSERT INTO reports (cols) VALUES (?, ...)`. -/
def parseInsert (ts : List Token) : Option Stmt :=
  match stripTokens [.word "INTO", .word "reports", .lparen] ts with
  | none => none
  | some t1 =>
    match parseCols t1 with
    | none => none
    | some (cols, t2) =>
      match stripTokens [.rparen, .word "VALUES", .lparen] t2 with
      | none => none
      | some t3 =>
        match parseParams t3 with
        | some (n, [.rparen]) => if n = cols.length then some (.insert cols n) else none
        | _ => none

/-- Parse a statement. -/
def parseStmt : List Token → Option Stmt
  | .word w :: rest =>
    if w = "SELECT" then parseSelect rest
    else if w = "INSERT" then parseInsert rest
    else none
  | _ => none

/-- Something sent to the store. -/
inductive Event where
  | prepare (q : String)
  | run (q : String) (args : List Arg)
deriving DecidableEq

/-- The store behind `sqlx.DB`: the rows of `reports` in insertion order, the
statements it refuses (connectivity, disk, resource limits) when preparing and
when running, its conversion of bound text compared with an integer column,
and the log of everything sent to it. -/
structure Db where
  reports : List Row
  refusePrepare : String → Option Error
  refuseRun : String → List Arg → Option Error
  affinity : String → Option Int
  log : List Event

/-- Comparison `column = ?` of a column value with a bound argument. -/
def matchesArg (affinity : String → Option Int) : Val → Arg → Bool
  | .int n, .int m => decide (n = m)
  | .int n, .str s => decide (affinity s = some n)
  | .text t, .str s => decide (t = s)
  | .text _, .int _ => false

/-- Conjunction of the `column = ?` terms of a `WHERE` clause on a row. -/
def rowMatches (affinity : String → Option Int) (r : Row) : List Col → List Arg → Bool
  | [], _ => true
  | _ :: _, [] => false
  | c :: cs, a :: rest => matchesArg affinity (r.get c) a && rowMatches affinity r cs rest

/-- Order of `ORDER BY input_index ASC, output_index ASC`. -/
def rowLe (r s : Row) : Bool :=
  decide (r.input_index < s.input_index) ||
    (decide (r.input_index = s.input_index) && decide (r.output_index ≤ s.output_index))

/-- Insert a row into a sorted list, before the first row that is not smaller. -/
def insertRow (r : Row) : List Row → List Row
  | [] => [r]
  | s :: rest => if rowLe r s then r :: s :: rest else s :: insertRow r rest

/-- Sort rows by `(input_index, output_index)`; rows with equal keys keep their
insertion order. -/
def sortRows : List Row → List Row
  | [] => []
  | r :: rest => insertRow r (sortRows rest)

/-- The clauses `LIMIT limit OFFSET offset` on a result: a negative limit means
no limit, a negative offset means no offset. -/
def window {α : Type} (limit offset : Int) (xs : List α) : List α :=
  let ys := xs.drop offset.toNat
  if limit < 0 then ys else ys.take limit.toNat

/-- Value of a `LIMIT`/`OFFSET` operand and the arguments left after it. -/
def boundValue : Option Bound → Int → List Arg → Except Error (Int × List Arg)
  | none, dflt, args => .ok (dflt, args)
  | some (.lit n), _, args => .ok ((n : Int), args)
  | some .param, _, .int n :: args => .ok (n, args)
  | some .param, _, _ => .error "datatype mismatch"

/-- Number of `?` placeholders of a select. -/
def paramCount (s : Select) : Nat :=
  s.conds.length + (if s.limit = some .param then 1 else 0)
    + (if s.offset = some .param then 1 else 0)

/-- Run a select on the table. -/
def runSelect (reports : List Row) (affinity : String → Option Int) (s : Select)
    (args : List Arg) : Except Error (List (List Val)) :=
  if args.length ≠ paramCount s then .error "sql: wrong number of arguments"
  else
    let matching := reports.filter (fun r => rowMatches affinity r s.conds args)
    match boundValue s.limit (-1) (args.drop s.conds.length) with
    | .error e => .error e
    | .ok (limit, rest) =>
      match boundValue s.offset 0 rest with
      | .error e => .error e
      | .ok (offset, _) =>
        match s.proj with
        | .count => .ok (window limit offset [[Val.int (matching.length : Int)]])
        | .cols cs =>
          let ordered := if s.ordered then sortRows matching else matching
          .ok (window limit offset (ordered.map (fun r => cs.map r.get)))

/-- Argument bound to a column of an insert. -/
def lookupCol : List Col → List Arg → Col → Option Arg
  | k :: ks, a :: rest, c => if k = c then some a else lookupCol ks rest c
  | _, _, _ => none

/-- Run an insert: the new row goes after the existing ones.  The columns are
typed: an integer for the indexes and text for the payload. -/
def runInsert (reports : List Row) (cols : List Col) (args : List Arg) :
    Except Error (List Row) :=
  if args.length ≠ cols.length then .error "sql: wrong number of arguments"
  else
    match lookupCol cols args .output_index, lookupCol cols args .payload,
        lookupCol cols args .input_index with
    | some (.int o), some (.str p), some (.int i) => .ok (reports ++ [⟨o, p, i⟩])
    | _, _, _ => .error "datatype mismatch"

/-- Send a statement with its arguments to the store and run it. -/
def Db.execute (db : Db) (q : String) (args : List Arg) :
    Except Error (List (List Val)) × Db :=
  let db1 := { db with log := db.log ++ [Event.run q args] }
  match db.refuseRun q args with
  | some e => (.error e, db1)
  | none =>
    match parseStmt (tokenize q) with
    | none => (.error "syntax error", db1)
    | some (.insert cols _) =>
      match runInsert db.reports cols args with
      | .error e => (.error e, db1)
      | .ok rows => (.ok [], { db1 with reports := rows })
    | some (.select s) =>
      match runSelect db.reports db.affinity s args with
      | .error e => (.error e, db1)
      | .ok rows => (.ok rows, db1)

/-! ## The `sqlx` calls used by the repository -/

/-- A prepared statement (`*sqlx.Stmt`). -/
structure PreparedStmt where
  query : String
deriving DecidableEq

/-- The call `Db.Exec(query, args...)`; the `sql.Result` is not used. -/
def Exec (db : Db) (query : String) (args : List Arg) : Option Error × Db :=
  match db.execute query args with
  | (.error e, db1) => (some e, db1)
  | (.ok _, db1) => (none, db1)

/-- The call `Db.MustExec(query, args...)`: `Exec` that panics on an error. -/
def MustExec (db : Db) (query : String) (args : List Arg) : Go Db :=
  match Exec db query args with
  | (some e, _) => .panic e
  | (none, db1) => .ret db1

/-- The call `Db.Preparex(query)`. -/
def Preparex (db : Db) (query : String) : Except Error PreparedStmt × Db :=
  let db1 := { db with log := db.log ++ [Event.prepare query] }
  match db.refusePrepare query with
  | some e => (.error e, db1)
  | none =>
    match parseStmt (tokenize query) with
    | none => (.error "syntax error", db1)
    | some _ => (.ok ⟨query⟩, db1)

/-- The call `stmt.Queryx(args...)`. -/
def stmtQueryx (db : Db) (stmt : PreparedStmt) (args : List Arg) :
    Except Error (List (List Val)) × Db :=
  db.execute stmt.query args

/-- Scan of a column into a `uint64`. -/
def scanUint64 : Val → Except Error Nat
  | .int n => if 0 ≤ n ∧ n.toNat < 2 ^ 64 then .ok n.toNat else .error "value out of range"
  | .text _ => .error "converting driver.Value type string to a uint64"

/-- Scan of a column into an `int`. -/
def scanInt : Val → Except Error Int
  | .int n => .ok n
  | .text _ => .error "converting driver.Value type string to a int"

/-- Scan of a column into a `string`; an integer is written in decimal. -/
def scanString : Val → Except Error String
  | .text s => .ok s
  | .int n => .ok (sprintfD n)

/-- The call `stmt.Get(&count, args...)` with a `uint64` destination: the first
row of the result, which must have one column. -/
def stmtGet (db : Db) (stmt : PreparedStmt) (args : List Arg) : Except Error Nat × Db :=
  match db.execute stmt.query args with
  | (.error e, db1) => (.error e, db1)
  | (.ok [], db1) => (.error "sql: no rows in result set", db1)
  | (.ok ([v] :: _), db1) => (scanUint64 v, db1)
  | (.ok (_ :: _), db1) => (.error "scannable dest type with more than one column", db1)

/-! ## The report repository -/

/-- Modelled from the spec: the struct `Report` is declared outside the sources
at hand.  A report has an input index, an output index (the field `Index`) and
a binary payload; the repository uses the indexes as `int` and the payload as
`[]byte`. -/
structure Report where
  Index : Int
  InputIndex : Int
  Payload : List Byte
deriving DecidableEq

/-- Modelled from the spec: the struct `commons.PageResult[Report]` is declared
outside the sources at hand.  The page result is `{rows, total, offset}`;
`FindAll` fills `Total` and `Offset` with `uint64` values. -/
structure PageResult where
  Rows : List Report
  Total : Nat
  Offset : Nat
deriving DecidableEq

/-- Signature of `commons.ComputePage(first, last, after, before, total)`,
whose results are `(offset, limit, err)`.  The function is a parameter of
`FindAll`. -/
abbrev PageCalculator :=
  Option Int → Option Int → Option String → Option String → Int → Int × Int × Option Error

/-- Statement text of `Create`. -/
def insertSql : String :=
  "INSERT INTO reports (\n\t\toutput_index,\n\t\tpayload,\n\t\tinput_index) VALUES (?, ?, ?)"

/-- The method `ReportRepository.Create`. -/
def Create (r : Db) (report : Report) : Go ((Report × Option Error) × Db) :=
  match MustExec r insertSql
      [Arg.int report.Index, Arg.str (Bytes2Hex report.Payload), Arg.int report.InputIndex] with
  | .panic msg => .panic msg
  | .ret r1 => .ret ((report, none), r1)

/-- The method `ReportRepository.Count`. -/
def Count (c : Db) (filter : List (Option ConvenienceFilter)) :
    Go ((Nat × Option Error) × Db) :=
  let query := "SELECT count(*) FROM reports "
  match transformToQuery filter with
  | .panic msg => .panic msg
  | .ret (_, _, some err) => .ret ((0, some err), c)
  | .ret (wher, args, none) =>
    let query := query ++ wher
    match Preparex c query with
    | (.error err, c1) => .ret ((0, some err), c1)
    | (.ok stmt, c1) =>
      match stmtGet c1 stmt args with
      | (.error err, c2) => .ret ((0, some err), c2)
      | (.ok count, c2) => .ret ((count, none), c2)

/-- The loop `for rows.Next()` of `FindAll`: scan each row into a report and
append it. -/
def scanReports : List (List Val) → List Report → Except Error (List Report)
  | [], reports => .ok reports
  | row :: rows, reports =>
    match row with
    | [a, b, c] =>
      match scanInt a with
      | .error err => .error err
      | .ok inputIndex =>
        match scanInt b with
        | .error err => .error err
        | .ok outputIndex =>
          match scanString c with
          | .error err => .error err
          | .ok payload =>
            scanReports rows (reports ++ [⟨outputIndex, inputIndex, Hex2Bytes payload⟩])
    | _ => .error "sql: expected 3 destination arguments in Scan"

/-- The method `ReportRepository.FindAll`. -/
def FindAll (ComputePage : PageCalculator) (c : Db) (first last : Option Int)
    (after before : Option String) (filter : List (Option ConvenienceFilter)) :
    Go ((Option PageResult × Option Error) × Db) :=
  match Count c filter with
  | .panic msg => .panic msg
  | .ret ((_, some err), c1) => .ret ((none, some err), c1)
  | .ret ((total, none), c1) =>
    let query := "SELECT input_index, output_index, payload FROM reports "
    match transformToQuery filter with
    | .panic msg => .panic msg
    | .ret (_, _, some err) => .ret ((none, some err), c1)
    | .ret (wher, args, none) =>
      let query := query ++ wher
      let query := query ++ "ORDER BY input_index ASC, output_index ASC "
      match ComputePage first last after before (intOfUint64 total) with
      | (_, _, some err) => .ret ((none, some err), c1)
      | (offset, limit, none) =>
        let query := query ++ "LIMIT ? "
        let args := args ++ [Arg.int limit]
        let query := query ++ "OFFSET ? "
        let args := args ++ [Arg.int offset]
        match Preparex c1 query with
        | (.error err, c2) => .ret ((none, some err), c2)
        | (.ok stmt, c2) =>
          match stmtQueryx c2 stmt args with
          | (.error err, c3) => .ret ((none, some err), c3)
          | (.ok rows, c3) =>
            match scanReports rows [] with
            | .error err => .ret ((none, some err), c3)
            | .ok reports => .ret ((some ⟨reports, total, uint64OfInt offset⟩, none), c3)

/-- The method `ReportRepository.FindAllByInputIndex`. -/
def FindAllByInputIndex (ComputePage : PageCalculator) (c : Db) (first last : Option Int)
    (after before : Option String) (inputIndex : Option Int) :
    Go ((Option PageResult × Option Error) × Db) :=
  let filter : List (Option ConvenienceFilter) := []
  let filter :=
    match inputIndex with
    | some n =>
      let field := INPUT_INDEX
      let value := sprintfD n
      filter ++ [some { Field := some field, Eq := some value }]
    | none => filter
  FindAll ComputePage c first last after before filter

/-! ## Shape of filter lists -/

/-- The field name of a filter element, when the element and its `Field`
pointer are not nil. -/
def fieldOf : Option ConvenienceFilter → Option String
  | some f => f.Field
  | none => none

/-- The equality value of a filter element, when it has one. -/
def eqOf : Option ConvenienceFilter → Option String
  | some f => f.Eq
  | none => none

/-- A field name of the closed set. -/
def recognized (field : String) : Bool := field = "InputIndex" || field = "OutputIndex"

/-- A filter element that names a recognized field and carries an equality
value. -/
def validFilter (e : Option ConvenienceFilter) : Bool :=
  match fieldOf e, eqOf e with
  | some field, some _ => recognized field
  | _, _ => false

/-- The field name of an element (empty when absent). -/
def fieldName (e : Option ConvenienceFilter) : String := (fieldOf e).getD ""

/-- The equality value of an element as a bound argument. -/
def eqArg (e : Option ConvenienceFilter) : Arg := Arg.str ((eqOf e).getD "")

/-- The placeholder term of a recognized field name. -/
def termFor (field : String) : String :=
  if field = "OutputIndex" then "output_index = ?" else "input_index = ?"

/-- The fragment described for a list of recognized field names: empty for the
empty list, otherwise `WHERE` and one term per name joined by `and`. -/
def expectedFragment (fields : List String) : String :=
  match fields with
  | [] => ""
  | _ :: _ => "WHERE " ++ stringsJoin (fields.map termFor) " and "

/-- The column a recognized field name stands for. -/
def colFor (field : String) : Col :=
  if field = "OutputIndex" then .output_index else .input_index

/-- Tokens of the terms `col = ?` joined by `and`, for a list of field names. -/
def condTokens : List String → List Token
  | [] => []
  | [f] =>
    [.word (if f = "OutputIndex" then "output_index" else "input_index"), .eq, .qmark]
  | f :: g :: rest =>
    [.word (if f = "OutputIndex" then "output_index" else "input_index"), .eq, .qmark,
      .word "and"] ++ condTokens (g :: rest)

/-- Statement text `Count` builds for a filter list of recognized fields. -/
def countSql (filter : List (Option ConvenienceFilter)) : String :=
  "SELECT count(*) FROM reports " ++ expectedFragment (filter.map fieldName)

/-- Statement text `FindAll` builds for a filter list of recognized fields: the
filter fragment, then the fixed `ORDER BY`, then `LIMIT` and `OFFSET`. -/
def pageSql (filter : List (Option ConvenienceFilter)) : String :=
  "SELECT input_index, output_index, payload FROM reports "
    ++ expectedFragment (filter.map fieldName)
    ++ "ORDER BY input_index ASC, output_index ASC " ++ "LIMIT ? " ++ "OFFSET ? "

/-- Rows of the table that satisfy every element of a valid filter list. -/
def matchingRows (db : Db) (filter : List (Option ConvenienceFilter)) : List Row :=
  db.reports.filter
    (fun r => rowMatches db.affinity r ((filter.map fieldName).map colFor) (filter.map eqArg))

/-- The report `FindAll` makes of a row. -/
def reportOfRow (r : Row) : Report := ⟨r.output_index, r.input_index, Hex2Bytes r.payload⟩

/-- Lexicographic order of reports by `(InputIndex, Index)`. -/
def reportLe (a b : Report) : Prop :=
  a.InputIndex < b.InputIndex ∨ (a.InputIndex = b.InputIndex ∧ a.Index ≤ b.Index)

/-! ## The convenience container -/

/-- Address of an object allocated by the container. -/
abbrev Ptr := Nat

/-- The components the container builds. -/
inductive Component where
  | outputDecoder
  | convenienceService
  | repository
  | syncRepository
  | graphQLSynchronizer
  | voucherFetcher
  | noticeRepository
deriving DecidableEq

/-- One construction: the component, its address and the component pointers
handed to its constructor. -/
structure Built where
  kind : Component
  addr : Ptr
  deps : List (Option Ptr)
deriving DecidableEq

/-- The allocator: the next free address and the constructions so far. -/
structure Heap where
  next : Ptr
  built : List Built
deriving DecidableEq

/-- Modelled from the spec: the constructors `decoder.NewOutputDecoder`,
`services.NewConvenienceService`, `synchronizer.NewSynchronizer` and
`synchronizer.NewVoucherFetcher` and the repository structs are outside the
sources at hand.  Each construction yields a new instance: it gets the next
free address and is recorded with the pointers handed to it. -/
def Heap.alloc (h : Heap) (kind : Component) (deps : List (Option Ptr)) : Ptr × Heap :=
  (h.next, { next := h.next + 1, built := h.built ++ [⟨kind, h.next, deps⟩] })

/-- The struct `Container`; a nil pointer is `none`. -/
structure Container where
  db : Option Ptr
  outputDecoder : Option Ptr
  convenienceService : Option Ptr
  repository : Option Ptr
  syncRepository : Option Ptr
  graphQLSynchronizer : Option Ptr
  voucherFetcher : Option Ptr
  noticeRepository : Option Ptr
deriving DecidableEq

/-- Result of the `CreateTables` method of each repository, which the
accessors call after constructing it. -/
abbrev Provisioning := Component → Option Error

/-- The function `NewContainer`. -/
def NewContainer (db : Ptr) : Container :=
  { db := some db, outputDecoder := none, convenienceService := none, repository := none,
    syncRepository := none, graphQLSynchronizer := none, voucherFetcher := none,
    noticeRepository := none }

/-- The method `Container.GetRepository`. -/
def GetRepository (CreateTables : Provisioning) (c : Container) (h : Heap) :
    Go (Option Ptr × Container × Heap) :=
  match c.repository with
  | some p => .ret (some p, c, h)
  | none =>
    match c.db with
    | none => .panic nilDeref
    | some _ =>
      let (p, h1) := h.alloc .repository []
      let c1 := { c with repository := some p }
      match CreateTables .repository with
      | some err => .panic err
      | none => .ret (c1.repository, c1, h1)

/-- The method `Container.GetSyncRepository`. -/
def GetSyncRepository (CreateTables : Provisioning) (c : Container) (h : Heap) :
    Go (Option Ptr × Container × Heap) :=
  match c.syncRepository with
  | some p => .ret (some p, c, h)
  | none =>
    match c.db with
    | none => .panic nilDeref
    | some _ =>
      let (p, h1) := h.alloc .syncRepository []
      let c1 := { c with syncRepository := some p }
      match CreateTables .syncRepository with
      | some err => .panic err
      | none => .ret (c1.syncRepository, c1, h1)

/-- The method `Container.GetNoticeRepository`; its guard reads
`c.syncRepository`. -/
def GetNoticeRepository (CreateTables : Provisioning) (c : Container) (h : Heap) :
    Go (Option Ptr × Container × Heap) :=
  match c.syncRepository with
  | some _ => .ret (c.noticeRepository, c, h)
  | none =>
    match c.db with
    | none => .panic nilDeref
    | some _ =>
      let (p, h1) := h.alloc .noticeRepository []
      let c1 := { c with noticeRepository := some p }
      match CreateTables .noticeRepository with
      | some err => .panic err
      | none => .ret (c1.noticeRepository, c1, h1)

/-- The method `Container.GetConvenienceService`. -/
def GetConvenienceService (CreateTables : Provisioning) (c : Container) (h : Heap) :
    Go (Option Ptr × Container × Heap) :=
  match c.convenienceService with
  | some p => .ret (some p, c, h)
  | none =>
    match GetRepository CreateTables c h with
    | .panic msg => .panic msg
    | .ret (repo, c1, h1) =>
      match GetNoticeRepository CreateTables c1 h1 with
      | .panic msg => .panic msg
      | .ret (notice, c2, h2) =>
        let (p, h3) := h2.alloc .convenienceService [repo, notice]
        let c3 := { c2 with convenienceService := some p }
        .ret (c3.convenienceService, c3, h3)

/-- The method `Container.GetOutputDecoder`; it dereferences the service. -/
def GetOutputDecoder (CreateTables : Provisioning) (c : Container) (h : Heap) :
    Go (Option Ptr × Container × Heap) :=
  match c.outputDecoder with
  | some p => .ret (some p, c, h)
  | none =>
    match GetConvenienceService CreateTables c h with
    | .panic msg => .panic msg
    | .ret (none, _, _) => .panic nilDeref
    | .ret (some service, c1, h1) =>
      let (p, h2) := h1.alloc .outputDecoder [some service]
      let c2 := { c1 with outputDecoder := some p }
      .ret (c2.outputDecoder, c2, h2)

/-- The method `Container.GetVoucherFetcher`. -/
def GetVoucherFetcher (c : Container) (h : Heap) : Go (Option Ptr × Container × Heap) :=
  match c.voucherFetcher with
  | some p => .ret (some p, c, h)
  | none =>
    let (p, h1) := h.alloc .voucherFetcher []
    let c1 := { c with voucherFetcher := some p }
    .ret (c1.voucherFetcher, c1, h1)

/-- The method `Container.GetGraphQLSynchronizer`. -/
def GetGraphQLSynchronizer (CreateTables : Provisioning) (c : Container) (h : Heap) :
    Go (Option Ptr × Container × Heap) :=
  match c.graphQLSynchronizer with
  | some p => .ret (some p, c, h)
  | none =>
    match GetOutputDecoder CreateTables c h with
    | .panic msg => .panic msg
    | .ret (decoder, c1, h1) =>
      match GetVoucherFetcher c1 h1 with
      | .panic msg => .panic msg
      | .ret (fetcher, c2, h2) =>
        match GetSyncRepository CreateTables c2 h2 with
        | .panic msg => .panic msg
        | .ret (sync, c3, h3) =>
          let (p, h4) := h3.alloc .graphQLSynchronizer [decoder, fetcher, sync]
          let c4 := { c3 with graphQLSynchronizer := some p }
          .ret (c4.graphQLSynchronizer, c4, h4)

/-- Provisioning that succeeds for every repository. -/
def provisioningOk : Provisioning := fun _ => none

/-- The allocator before anything is built. -/
def emptyHeap : Heap := { next := 1, built := [] }

/-! ## Sample values -/

/-- Conversion of bound text made of decimal digits. -/
def decimalAffinity (s : String) : Option Int :=
  match s.data with
  | [] => none
  | c :: cs =>
    match parseNat (c :: cs) 0 with
    | some n => some (n : Int)
    | none => none

/-- A store that refuses every statement. -/
def offlineDb : Db :=
  { reports := [], refusePrepare := fun _ => some "database is locked",
    refuseRun := fun _ _ => some "database is locked", affinity := decimalAffinity, log := [] }

/-- A store that holds three reports and refuses nothing. -/
def sampleDb : Db :=
  { reports := [⟨1, "dead", 3⟩, ⟨0, "01", 3⟩, ⟨7, "", 1⟩], refusePrepare := fun _ => none,
    refuseRun := fun _ _ => none, affinity := decimalAffinity, log := [] }

/-- The filter list `[{Field: "InputIndex", Eq: "3"}]`. -/
def sampleFilter : List (Option ConvenienceFilter) := [some ⟨some "InputIndex", some "3"⟩]

/-- The page of the sample store for `sampleFilter` and `first = 2`. -/
def samplePage : PageResult :=
  { Rows := [⟨0, 3, [1]⟩, ⟨1, 3, [222, 173]⟩], Total := 2, Offset := 0 }

/-- The sample store after `FindAll` with `sampleFilter` and `first = 2`. -/
def sampleDbAfter : Db :=
  { sampleDb with
    log := [Event.prepare "SELECT count(*) FROM reports WHERE input_index = ?",
      Event.run "SELECT count(*) FROM reports WHERE input_index = ?" [Arg.str "3"],
      Event.prepare ("SELECT input_index, output_index, payload FROM reports "
        ++ "WHERE input_index = ?ORDER BY input_index ASC, output_index ASC LIMIT ? OFFSET ? "),
      Event.run ("SELECT input_index, output_index, payload FROM reports "
        ++ "WHERE input_index = ?ORDER BY input_index ASC, output_index ASC LIMIT ? OFFSET ? ")
        [Arg.str "3", Arg.int 2, Arg.int 0]] }

/-- The report `{InputIndex: 3, Index: 2, Payload: 0xBEEF}`. -/
def beefReport : Report := { InputIndex := 3, Index := 2, Payload := [0xBE, 0xEF] }

/-- A pagination calculator for forward paging from the start: `first` rows,
or the whole result when `first` is absent; a negative `first` or a negative
total is an error. -/
def forwardPage : PageCalculator := fun first _ _ _ total =>
  if total < 0 then (0, 0, some "invalid total")
  else
    match first with
    | none => (0, total, none)
    | some n => if n < 0 then (0, 0, some "invalid pagination") else (0, n, none)

/-- Run `GetSyncRepository` and then `GetNoticeRepository` on a fresh container. -/
def syncThenNotice : Go (Option Ptr × Container × Heap) :=
  match GetSyncRepository provisioningOk (NewContainer 0) emptyHeap with
  | .panic msg => .panic msg
  | .ret (_, c, h) => GetNoticeRepository provisioningOk c h

/-- Run `GetNoticeRepository` twice on a fresh container. -/
def noticeTwice : Go (Option Ptr × Container × Heap) :=
  match GetNoticeRepository provisioningOk (NewContainer 0) emptyHeap with
  | .panic msg => .panic msg
  | .ret (_, c, h) => GetNoticeRepository provisioningOk c h

/-! ## Filter translation -/

theorem validFilter_iff (e : Option ConvenienceFilter) :
    validFilter e = true ↔
      ∃ field v, e = some ⟨some field, some v⟩ ∧ (field = "InputIndex" ∨ field = "OutputIndex") := by
  constructor
  · intro h
    rcases e with _ | ⟨_ | field, _ | v⟩ <;> simp [validFilter, fieldOf, eqOf, recognized] at h
    exact ⟨field, v, rfl, h⟩
  · rintro ⟨field, v, rfl, h⟩
    simpa [validFilter, fieldOf, eqOf, recognized] using h

theorem transformLoop_valid (pre rest : List (Option ConvenienceFilter))
    (h : ∀ e ∈ pre, validFilter e = true) (wher : List String) (args : List Arg) :
    transformLoop wher args (pre ++ rest)
      = transformLoop (wher ++ (pre.map fieldName).map termFor) (args ++ pre.map eqArg) rest := by
  induction pre generalizing wher args with
  | nil => simp
  | cons e pre ih =>
    obtain ⟨field, v, rfl, hf⟩ := (validFilter_iff e).1 (h e (List.mem_cons_self _ _))
    have hpre : ∀ x ∈ pre, validFilter x = true := fun x hx => h x (List.mem_cons_of_mem _ hx)
    rcases hf with rfl | rfl
    · simp [transformLoop, INPUT_INDEX, ih hpre, fieldName, fieldOf, eqArg, eqOf, termFor]
    · simp [transformLoop, INPUT_INDEX, ih hpre, fieldName, fieldOf, eqArg, eqOf, termFor]

theorem transformToQuery_of_valid (filter : List (Option ConvenienceFilter))
    (h : ∀ e ∈ filter, validFilter e = true) :
    transformToQuery filter
      = .ret (expectedFragment (filter.map fieldName), filter.map eqArg, none) := by
  have := transformLoop_valid filter [] h [] []
  simp only [List.append_nil, List.nil_append] at this
  unfold transformToQuery
  rw [this]
  cases filter with
  | nil => simp [transformLoop, expectedFragment, stringsJoin]
  | cons e rest => simp [transformLoop, expectedFragment]

theorem transformLoop_ok_valid (filter : List (Option ConvenienceFilter)) (wher : List String)
    (args : List Arg) (r : List String × List Arg)
    (h : transformLoop wher args filter = .ret (.ok r)) : ∀ e ∈ filter, validFilter e = true := by
  induction filter generalizing wher args with
  | nil => simp
  | cons e rest ih =>
    rcases e with _ | ⟨_ | field, eqv⟩
    · simp [transformLoop] at h
    · simp [transformLoop] at h
    · by_cases h1 : field = "OutputIndex"
      · subst h1
        cases eqv with
        | none => simp [transformLoop] at h
        | some v =>
          simp only [transformLoop, if_true] at h
          intro x hx
          rcases List.mem_cons.1 hx with rfl | hx
          · simp [validFilter, fieldOf, eqOf, recognized]
          · exact ih _ _ h x hx
      · by_cases h2 : field = "InputIndex"
        · subst h2
          cases eqv with
          | none => simp [transformLoop, INPUT_INDEX] at h
          | some v =>
            simp [transformLoop, INPUT_INDEX] at h
            intro x hx
            rcases List.mem_cons.1 hx with rfl | hx
            · simp [validFilter, fieldOf, eqOf, recognized]
            · exact ih _ _ h x hx
        · simp [transformLoop, INPUT_INDEX, h1, h2] at h

theorem transformToQuery_ok_valid (filter : List (Option ConvenienceFilter)) (wher : String)
    (args : List Arg) (h : transformToQuery filter = .ret (wher, args, none)) :
    ∀ e ∈ filter, validFilter e = true := by
  unfold transformToQuery at h
  cases hl : transformLoop [] [] filter with
  | panic msg => simp [hl] at h
  | ret r =>
    cases r with
    | error e => simp [hl] at h
    | ok r => exact transformLoop_ok_valid filter [] [] r hl

/-- An element with an unknown field name, reached through elements that all
carry a field name, stops the loop with an error. -/
theorem transformLoop_unknown (pre post : List (Option ConvenienceFilter))
    (e : Option ConvenienceFilter) (field : String)
    (hpre : ∀ x ∈ pre, fieldOf x ≠ none) (he : fieldOf e = some field)
    (hf : recognized field = false) (wher : List String) (args : List Arg) :
    ∃ err, transformLoop wher args (pre ++ e :: post) = .ret (.error err) := by
  induction pre generalizing wher args with
  | nil =>
    rcases e with _ | ⟨_ | f, eqv⟩ <;> simp [fieldOf] at he
    subst he
    simp [recognized] at hf
    exact ⟨"unexpected field " ++ f, by simp [transformLoop, INPUT_INDEX, hf.1, hf.2]⟩
  | cons x pre ih =>
    have hx := hpre x (List.mem_cons_self _ _)
    have hpre1 : ∀ y ∈ pre, fieldOf y ≠ none := fun y hy => hpre y (List.mem_cons_of_mem _ hy)
    rcases x with _ | ⟨_ | f, eqv⟩
    · simp [fieldOf] at hx
    · simp [fieldOf] at hx
    · by_cases h1 : f = "OutputIndex"
      · cases eqv with
        | none => exact ⟨"operation not implemented", by simp [transformLoop, h1]⟩
        | some v =>
          obtain ⟨err, herr⟩ := ih hpre1 (wher ++ ["output_index = ?"]) (args ++ [Arg.str v])
          exact ⟨err, by simpa [transformLoop, h1] using herr⟩
      · by_cases h2 : f = "InputIndex"
        · cases eqv with
          | none => exact ⟨"operation not implemented", by simp [transformLoop, INPUT_INDEX, h2]⟩
          | some v =>
            obtain ⟨err, herr⟩ := ih hpre1 (wher ++ ["input_index = ?"]) (args ++ [Arg.str v])
            exact ⟨err, by simpa [transformLoop, INPUT_INDEX, h2] using herr⟩
        · exact ⟨"unexpected field " ++ f, by simp [transformLoop, INPUT_INDEX, h1, h2]⟩

theorem transformLoop_unknown_first (pre post : List (Option ConvenienceFilter))
    (e : Option ConvenienceFilter) (field : String)
    (hpre : ∀ x ∈ pre, validFilter x = true) (he : fieldOf e = some field)
    (hf : recognized field = false) :
    transformLoop [] [] (pre ++ e :: post) = .ret (.error ("unexpected field " ++ field)) := by
  rw [transformLoop_valid pre _ hpre]
  rcases e with _ | ⟨_ | f, eqv⟩ <;> simp [fieldOf] at he
  subst he
  simp [recognized] at hf
  simp [transformLoop, INPUT_INDEX, hf.1, hf.2]

theorem transformLoop_missing_eq (pre post : List (Option ConvenienceFilter)) (field : String)
    (hpre : ∀ x ∈ pre, validFilter x = true) (hf : recognized field = true) :
    transformLoop [] [] (pre ++ some ⟨some field, none⟩ :: post)
      = .ret (.error "operation not implemented") := by
  rw [transformLoop_valid pre _ hpre]
  simp [recognized] at hf
  rcases hf with rfl | rfl <;> simp [transformLoop, INPUT_INDEX]

theorem count_placeholders_join (fields : List String) :
    (stringsJoin (fields.map termFor) " and ").data.count '?' = fields.length := by
  induction fields with
  | nil => simp [stringsJoin]
  | cons a rest ih =>
    have ha : (termFor a).data.count '?' = 1 := by
      unfold termFor; split <;> decide
    cases rest with
    | nil => simpa [stringsJoin] using ha
    | cons b rest =>
      have hsep : (" and " : String).data.count '?' = 0 := by decide
      simp only [List.map_cons, stringsJoin, String.data_append, List.count_append, ha, hsep]
      simp only [List.map_cons] at ih
      rw [ih]
      simp [Nat.add_comm]

theorem count_placeholders (fields : List String) :
    (expectedFragment fields).data.count '?' = fields.length := by
  cases fields with
  | nil => simp [expectedFragment]
  | cons a rest =>
    have hw : ("WHERE " : String).data.count '?' = 0 := by decide
    simp only [expectedFragment, String.data_append, List.count_append, hw,
      count_placeholders_join, Nat.zero_add]

theorem count_of_filter_error (db : Db) (filter : List (Option ConvenienceFilter))
    (wher : String) (args : List Arg) (err : Error)
    (h : transformToQuery filter = .ret (wher, args, some err)) :
    Count db filter = .ret ((0, some err), db) := by
  simp [Count, h]

theorem findAll_of_filter_error (cp : PageCalculator) (db : Db) (first last : Option Int)
    (after before : Option String) (filter : List (Option ConvenienceFilter))
    (wher : String) (args : List Arg) (err : Error)
    (h : transformToQuery filter = .ret (wher, args, some err)) :
    FindAll cp db first last after before filter = .ret ((none, some err), db) := by
  simp [FindAll, count_of_filter_error db filter wher args err h]

/-- C1 (amended): for every store, every pagination argument set and every
filter list with an element whose field name is neither "InputIndex" nor
"OutputIndex", where every element before it is non-nil and has a non-nil
`Field`, `transformToQuery`, `Count` and `FindAll` each return an error; `Count`
and `FindAll` hand back the store untouched (nothing was sent to it); and when
every element before that one is valid the error is "unexpected field"
followed by the field name. -/
theorem C1_unknown_field_rejected (cp : PageCalculator) (db : Db) (first last : Option Int)
    (after before : Option String) (pre post : List (Option ConvenienceFilter))
    (e : Option ConvenienceFilter) (field : String)
    (hpre : ∀ x ∈ pre, fieldOf x ≠ none) (he : fieldOf e = some field)
    (hf : recognized field = false) :
    ∃ err : Error,
      transformToQuery (pre ++ e :: post) = .ret ("", [], some err) ∧
      Count db (pre ++ e :: post) = .ret ((0, some err), db) ∧
      FindAll cp db first last after before (pre ++ e :: post) = .ret ((none, some err), db) ∧
      ((∀ x ∈ pre, validFilter x = true) → err = "unexpected field " ++ field) := by
  obtain ⟨err, herr⟩ := transformLoop_unknown pre post e field hpre he hf [] []
  have ht : transformToQuery (pre ++ e :: post) = .ret ("", [], some err) := by
    simp [transformToQuery, herr]
  refine ⟨err, ht, count_of_filter_error db _ _ _ _ ht,
    findAll_of_filter_error cp db first last after before _ _ _ _ ht, ?_⟩
  intro hvalid
  have h2 := transformLoop_unknown_first pre post e field hvalid he hf
  rw [herr] at h2
  simpa using h2

/-- C1 (witness): the filter list `[{InputIndex, "5"}, {Foo}]` on the sample
store. -/
theorem C1_unknown_field_rejected_witness :
    (∀ x ∈ [some (ConvenienceFilter.mk (some "InputIndex") (some "5"))], fieldOf x ≠ none) ∧
    fieldOf (some (ConvenienceFilter.mk (some "Foo") none)) = some "Foo" ∧
    recognized "Foo" = false ∧
    ∃ err : Error,
      transformToQuery ([some (ConvenienceFilter.mk (some "InputIndex") (some "5"))] ++
        some (ConvenienceFilter.mk (some "Foo") none) :: []) = .ret ("", [], some err) ∧
      Count sampleDb ([some (ConvenienceFilter.mk (some "InputIndex") (some "5"))] ++
        some (ConvenienceFilter.mk (some "Foo") none) :: []) = .ret ((0, some err), sampleDb) ∧
      FindAll forwardPage sampleDb none none none none
        ([some (ConvenienceFilter.mk (some "InputIndex") (some "5"))] ++
          some (ConvenienceFilter.mk (some "Foo") none) :: []) = .ret ((none, some err), sampleDb) ∧
      ((∀ x ∈ [some (ConvenienceFilter.mk (some "InputIndex") (some "5"))],
          validFilter x = true) → err = "unexpected field " ++ "Foo") :=
  ⟨by decide, rfl, by decide,
    C1_unknown_field_rejected forwardPage sampleDb none none none none
      [some (ConvenienceFilter.mk (some "InputIndex") (some "5"))] []
      (some (ConvenienceFilter.mk (some "Foo") none)) "Foo" (by decide) rfl (by decide)⟩

/-- C1 (counterexample): the filter list `[{Field: nil}, {Field: "Foo"}]`
contains an element whose field name is neither "InputIndex" nor
"OutputIndex", yet `transformToQuery`, `Count` and `FindAll` return no error:
they panic on the nil `Field` of the first element. -/
theorem C1_counterexample :
    (∃ e ∈ [some (ConvenienceFilter.mk none none), some (ConvenienceFilter.mk (some "Foo") none)],
      ∃ field, fieldOf e = some field ∧ recognized field = false) ∧
    transformToQuery
      [some (ConvenienceFilter.mk none none), some (ConvenienceFilter.mk (some "Foo") none)]
        = Go.panic nilDeref ∧
    Count sampleDb
      [some (ConvenienceFilter.mk none none), some (ConvenienceFilter.mk (some "Foo") none)]
        = Go.panic nilDeref ∧
    FindAll forwardPage sampleDb none none none none
      [some (ConvenienceFilter.mk none none), some (ConvenienceFilter.mk (some "Foo") none)]
        = Go.panic nilDeref :=
  ⟨⟨some (ConvenienceFilter.mk (some "Foo") none), by simp, "Foo", rfl, by decide⟩, rfl, rfl, rfl⟩

/-- C2: for every filter list whose first invalid element names a recognized
field but carries no equality value, `transformToQuery` returns the error
"operation not implemented" with an empty fragment and no bound arguments, and
that error differs from every "unexpected field ..." error. -/
theorem C2_missing_operator_rejected (pre post : List (Option ConvenienceFilter))
    (field : String) (hpre : ∀ x ∈ pre, validFilter x = true)
    (hf : recognized field = true) :
    transformToQuery (pre ++ some ⟨some field, none⟩ :: post)
        = .ret ("", [], some "operation not implemented") ∧
    ∀ other : String, ("operation not implemented" : Error) ≠ "unexpected field " ++ other := by
  constructor
  · simp [transformToQuery, transformLoop_missing_eq pre post field hpre hf]
  · intro other h
    have h1 := congrArg String.data h
    rw [String.data_append] at h1
    have h2 := congrArg List.head? h1
    have h3 : ("unexpected field ".data ++ other.data).head? = some 'u' := rfl
    rw [h3] at h2
    revert h2
    decide

/-- C2 (witness): `[{OutputIndex, "1"}, {InputIndex, no value}, {Foo}]`. -/
theorem C2_missing_operator_rejected_witness :
    (∀ x ∈ [some (ConvenienceFilter.mk (some "OutputIndex") (some "1"))],
      validFilter x = true) ∧
    recognized "InputIndex" = true ∧
    transformToQuery ([some (ConvenienceFilter.mk (some "OutputIndex") (some "1"))] ++
        some ⟨some "InputIndex", none⟩ :: [some (ConvenienceFilter.mk (some "Foo") none)])
        = .ret ("", [], some "operation not implemented") ∧
    ∀ other : String, ("operation not implemented" : Error) ≠ "unexpected field " ++ other :=
  ⟨by decide, by decide,
    C2_missing_operator_rejected [some (ConvenienceFilter.mk (some "OutputIndex") (some "1"))]
      [some (ConvenienceFilter.mk (some "Foo") none)] "InputIndex" (by decide) (by decide)⟩

/-- C3: for every filter list whose elements all name a recognized field and
carry an equality value, `transformToQuery` succeeds; the fragment is empty
for the empty list and otherwise "WHERE " followed by one "input_index = ?" or
"output_index = ?" term per element in list order joined by " and "; the
arguments are the equality values in list order; the number of `?` in the
fragment is the number of arguments; and a valid list with the same field
names yields the same fragment whatever its values. -/
theorem C3_valid_filter_translated (filter : List (Option ConvenienceFilter))
    (h : ∀ e ∈ filter, validFilter e = true) :
    transformToQuery filter
        = .ret (expectedFragment (filter.map fieldName), filter.map eqArg, none) ∧
    (expectedFragment (filter.map fieldName)).data.count '?' = (filter.map eqArg).length ∧
    ∀ other : List (Option ConvenienceFilter), (∀ e ∈ other, validFilter e = true) →
      other.map fieldName = filter.map fieldName →
      transformToQuery other
        = .ret (expectedFragment (filter.map fieldName), other.map eqArg, none) := by
  refine ⟨transformToQuery_of_valid filter h, ?_, ?_⟩
  · rw [count_placeholders]
    simp
  · intro other ho hn
    rw [transformToQuery_of_valid other ho, hn]

/-- C3 (witness): `[{InputIndex, "5"}, {OutputIndex, "1"}]`. -/
theorem C3_valid_filter_translated_witness :
    (∀ e ∈ [some (ConvenienceFilter.mk (some "InputIndex") (some "5")),
        some (ConvenienceFilter.mk (some "OutputIndex") (some "1"))], validFilter e = true) ∧
    transformToQuery [some (ConvenienceFilter.mk (some "InputIndex") (some "5")),
        some (ConvenienceFilter.mk (some "OutputIndex") (some "1"))]
      = .ret ("WHERE input_index = ? and output_index = ?", [Arg.str "5", Arg.str "1"], none) :=
  ⟨by decide,
    (C3_valid_filter_translated [some (ConvenienceFilter.mk (some "InputIndex") (some "5")),
        some (ConvenienceFilter.mk (some "OutputIndex") (some "1"))] (by decide)).1⟩

theorem sprintfD_examples :
    sprintfD 0 = "0" ∧ sprintfD 5 = "5" ∧ sprintfD (-120) = "-120" ∧
    sprintfD 9223372036854775807 = "9223372036854775807" ∧
    sprintfD (-9223372036854775808) = "-9223372036854775808" :=
  ⟨rfl, rfl, rfl, rfl, rfl⟩

theorem digitChar_of_lt_ten (d : Nat) (hd : d < 10) : Char.ofNat (48 + d) = Nat.digitChar d := by
  interval_cases d <;> rfl

theorem decimalDigits_eq_digits (fuel n : Nat) (hn : 0 < n) (hf : n < fuel) (acc : List Char) :
    decimalDigits fuel n acc = (Nat.digits 10 n).reverse.map Nat.digitChar ++ acc := by
  induction fuel generalizing n acc with
  | zero => omega
  | succ f ih =>
    have hd := digitChar_of_lt_ten (n % 10) (Nat.mod_lt _ (by omega))
    rw [Nat.digits_def' (by omega) hn]
    simp only [decimalDigits, hd, List.reverse_cons, List.map_append, List.map_cons,
      List.map_nil, List.append_assoc, List.singleton_append]
    by_cases h0 : n / 10 = 0
    · simp [h0]
    · rw [if_neg h0, ih (n / 10) (by omega) (by omega)]

theorem sprintfD_eq_decimalString (n : Int) : sprintfD n = decimalString n := by
  unfold sprintfD decimalString
  by_cases h0 : n = 0
  · subst h0
    rfl
  · have hpos : 0 < n.natAbs := Int.natAbs_pos.2 h0
    have hd := decimalDigits_eq_digits (n.natAbs + 1) n.natAbs hpos (by omega) []
    rw [List.append_nil] at hd
    simp only [hd, h0, if_false]
    split <;> rfl

/-- C4: for every store, every pagination argument set and every integer `n`,
`FindAllByInputIndex(first, last, after, before, &n)` is `FindAll` of the same
arguments with the single filter `{Field: "InputIndex", Eq: decimal string of
n}`: the same result and the same traffic to the store.  The decimal string is
`decimalString n`, defined apart from the code by the sign and the base-10
digits of `n`; for `n = 5`, `255` and `-120` it is "5", "255" and "-120". -/
theorem C4_find_all_by_input_index (cp : PageCalculator) (db : Db) (first last : Option Int)
    (after before : Option String) (n : Int) :
    FindAllByInputIndex cp db first last after before (some n)
        = FindAll cp db first last after before
            [some ⟨some "InputIndex", some (decimalString n)⟩] ∧
    FindAllByInputIndex cp db first last after before (some 5)
        = FindAll cp db first last after before [some ⟨some "InputIndex", some "5"⟩] ∧
    FindAllByInputIndex cp db first last after before (some 255)
        = FindAll cp db first last after before [some ⟨some "InputIndex", some "255"⟩] ∧
    FindAllByInputIndex cp db first last after before (some (-120))
        = FindAll cp db first last after before [some ⟨some "InputIndex", some "-120"⟩] ∧
    (decimalString 0 = "0" ∧ decimalString 5 = "5" ∧ decimalString 255 = "255" ∧
      decimalString (-120) = "-120") := by
  refine ⟨?_, rfl, rfl, rfl, ?_⟩
  · show FindAll cp db first last after before [some ⟨some INPUT_INDEX, some (sprintfD n)⟩] = _
    rw [sprintfD_eq_decimalString]
    rfl
  · simp only [← sprintfD_eq_decimalString]
    exact ⟨rfl, rfl, rfl, rfl⟩

/-! ## Tokens of the statements the repository builds -/

theorem tokenize_count_head (rest : List Char) :
    tokenizeAux [] ("SELECT count(*) FROM reports ".data ++ rest)
      = [.word "SELECT", .word "count", .lparen, .star, .rparen, .word "FROM", .word "reports"]
          ++ tokenizeAux [] rest := rfl

theorem tokenize_page_head (rest : List Char) :
    tokenizeAux [] ("SELECT input_index, output_index, payload FROM reports ".data ++ rest)
      = [.word "SELECT", .word "input_index", .comma, .word "output_index", .comma,
          .word "payload", .word "FROM", .word "reports"] ++ tokenizeAux [] rest := rfl

theorem tokenize_where (rest : List Char) :
    tokenizeAux [] ("WHERE ".data ++ rest) = .word "WHERE" :: tokenizeAux [] rest := rfl

theorem tokenize_and (rest : List Char) :
    tokenizeAux [] (" and ".data ++ rest) = .word "and" :: tokenizeAux [] rest := rfl

theorem tokenize_input_term (rest : List Char) :
    tokenizeAux [] ("input_index = ?".data ++ rest)
      = [.word "input_index", .eq, .qmark] ++ tokenizeAux [] rest := rfl

theorem tokenize_output_term (rest : List Char) :
    tokenizeAux [] ("output_index = ?".data ++ rest)
      = [.word "output_index", .eq, .qmark] ++ tokenizeAux [] rest := rfl

theorem tokenize_page_suffix :
    tokenizeAux [] ("ORDER BY input_index ASC, output_index ASC ".data ++
        ("LIMIT ? ".data ++ "OFFSET ? ".data))
      = orderTokens ++ [.word "LIMIT", .qmark, .word "OFFSET", .qmark] := rfl

theorem tokenize_term (f : String) (rest : List Char) :
    tokenizeAux [] ((termFor f).data ++ rest)
      = [.word (if f = "OutputIndex" then "output_index" else "input_index"), .eq, .qmark]
          ++ tokenizeAux [] rest := by
  unfold termFor
  split
  · exact tokenize_output_term rest
  · exact tokenize_input_term rest

theorem tokenize_join (fields : List String) (rest : List Char) :
    tokenizeAux [] ((stringsJoin (fields.map termFor) " and ").data ++ rest)
      = condTokens fields ++ tokenizeAux [] rest := by
  induction fields with
  | nil => simp [stringsJoin, condTokens]
  | cons f tail ih =>
    cases tail with
    | nil => simpa [stringsJoin, condTokens] using tokenize_term f rest
    | cons g tail =>
      simp only [List.map_cons, stringsJoin, String.data_append, List.append_assoc]
      rw [tokenize_term, tokenize_and]
      simp only [List.map_cons] at ih
      rw [ih]
      simp [condTokens]

theorem parseConds_condTokens (fields : List String) (hne : fields ≠ []) (rest : List Token)
    (hrest : ∀ r, rest ≠ .word "and" :: r) :
    parseConds (condTokens fields ++ rest) = some (fields.map colFor, rest) := by
  induction fields with
  | nil => exact absurd rfl hne
  | cons f tail ih =>
    cases tail with
    | nil =>
      have hc : colOf (if f = "OutputIndex" then "output_index" else "input_index")
          = some (colFor f) := by
        unfold colFor; split <;> rfl
      have hp : colFor f ≠ Col.payload := by
        unfold colFor; split <;> decide
      cases rest with
      | nil =>
        simp only [condTokens, List.append_nil, parseConds, hc]
        cases hcf : colFor f <;> simp_all
      | cons t r =>
        cases t with
        | word a =>
          have ha : a ≠ "and" := fun h => hrest r (by rw [h])
          simp only [condTokens, List.cons_append, List.nil_append, parseConds, hc]
          cases hcf : colFor f <;> simp_all
        | _ =>
          simp only [condTokens, List.cons_append, List.nil_append, parseConds, hc]
          cases hcf : colFor f <;> simp_all
    | cons g tail =>
      have hc : colOf (if f = "OutputIndex" then "output_index" else "input_index")
          = some (colFor f) := by
        unfold colFor; split <;> rfl
      have hp : colFor f ≠ Col.payload := by
        unfold colFor; split <;> decide
      have ih1 := ih (by simp)
      simp only [condTokens, List.cons_append, List.nil_append, List.append_assoc, parseConds, hc]
      simp only [condTokens, List.cons_append, List.nil_append, List.append_assoc] at ih1
      cases hcf : colFor f
      · simp [ih1, hcf]
      · exact absurd hcf hp
      · simp [ih1, hcf]

/-! ## Parsing the statements the repository builds -/

theorem parse_count_tokens (T : List Token) :
    parseStmt ([.word "SELECT", .word "count", .lparen, .star, .rparen, .word "FROM",
        .word "reports"] ++ T) = parseTail .count T := rfl

theorem parse_page_tokens (T : List Token) :
    parseStmt ([.word "SELECT", .word "input_index", .comma, .word "output_index", .comma,
        .word "payload", .word "FROM", .word "reports"] ++ T)
      = parseTail (.cols [.input_index, .output_index, .payload]) T := rfl

theorem parse_countSql (filter : List (Option ConvenienceFilter)) :
    parseStmt (tokenize (countSql filter))
      = some (.select ⟨.count, (filter.map fieldName).map colFor, false, none, none⟩) := by
  unfold countSql tokenize
  rw [String.data_append, tokenize_count_head, parse_count_tokens]
  cases hf : filter.map fieldName with
  | nil => rfl
  | cons f tail =>
    have h := tokenize_join (f :: tail) []
    rw [List.append_nil] at h
    simp only [expectedFragment, String.data_append]
    rw [tokenize_where, h]
    have hp := parseConds_condTokens (f :: tail) (by simp) [] (by simp)
    have h0 : tokenizeAux [] [] = [] := rfl
    rw [h0, ← List.append_nil (condTokens (f :: tail) ++ [])]
    simp only [List.append_nil] at hp ⊢
    simp [parseTail, parseWhere, hp, parseOrder, parseLimit]

theorem parse_pageSql (filter : List (Option ConvenienceFilter)) :
    parseStmt (tokenize (pageSql filter))
      = some (.select ⟨.cols [.input_index, .output_index, .payload],
          (filter.map fieldName).map colFor, true, some .param, some .param⟩) := by
  unfold pageSql tokenize
  simp only [String.data_append, List.append_assoc]
  rw [tokenize_page_head, parse_page_tokens]
  cases hf : filter.map fieldName with
  | nil =>
    simp only [expectedFragment]
    rfl
  | cons f tail =>
    simp only [expectedFragment, String.data_append, List.append_assoc]
    rw [tokenize_where, tokenize_join, tokenize_page_suffix]
    have hp := parseConds_condTokens (f :: tail) (by simp)
      (orderTokens ++ [.word "LIMIT", .qmark, .word "OFFSET", .qmark])
      (by intro r h; simp [orderTokens] at h)
    simp only [parseTail, parseWhere, if_true, hp]
    rfl

/-! ## Running the statements -/

theorem rowMatches_append (aff : String → Option Int) (r : Row) (conds : List Col)
    (args extra : List Arg) (h : args.length = conds.length) :
    rowMatches aff r conds (args ++ extra) = rowMatches aff r conds args := by
  induction conds generalizing args with
  | nil => simp [rowMatches]
  | cons c cs ih =>
    cases args with
    | nil => simp at h
    | cons a rest =>
      have h1 := ih rest (by simpa using h)
      show (matchesArg aff (r.get c) a && rowMatches aff r cs (rest ++ extra))
        = (matchesArg aff (r.get c) a && rowMatches aff r cs rest)
      rw [h1]

theorem window_all {α : Type} (xs : List α) : window (-1) 0 xs = xs := by
  simp [window]

theorem window_map {α β : Type} (f : α → β) (limit offset : Int) (xs : List α) :
    window limit offset (xs.map f) = (window limit offset xs).map f := by
  unfold window
  split <;> simp [List.map_drop, List.map_take]

theorem window_length_le {α : Type} (limit offset : Int) (xs : List α) (hl : 0 ≤ limit) :
    ((window limit offset xs).length : Int) ≤ limit := by
  unfold window
  have : ¬ limit < 0 := by omega
  simp only [this, if_false, List.length_take, List.length_drop]
  omega

theorem window_length_add_le {α : Type} (limit offset : Int) (xs : List α)
    (ho : offset.toNat ≤ xs.length) :
    offset.toNat + (window limit offset xs).length ≤ xs.length := by
  unfold window
  split
  · simp only [List.length_drop]; omega
  · simp only [List.length_take, List.length_drop]; omega

theorem runSelect_count (reports : List Row) (aff : String → Option Int) (conds : List Col)
    (args : List Arg) (h : args.length = conds.length) :
    runSelect reports aff ⟨.count, conds, false, none, none⟩ args
      = .ok [[Val.int ((reports.filter (fun r => rowMatches aff r conds args)).length : Int)]] := by
  simp [runSelect, paramCount, h, boundValue, window_all]

theorem runSelect_page (reports : List Row) (aff : String → Option Int) (cs conds : List Col)
    (args : List Arg) (limit offset : Int) (h : args.length = conds.length) :
    runSelect reports aff ⟨.cols cs, conds, true, some .param, some .param⟩
        (args ++ [Arg.int limit] ++ [Arg.int offset])
      = .ok (window limit offset
          ((sortRows (reports.filter (fun r => rowMatches aff r conds args))).map
            (fun r => cs.map r.get))) := by
  have hd : List.drop conds.length (args ++ [Arg.int limit] ++ [Arg.int offset])
      = [Arg.int limit, Arg.int offset] := by
    rw [List.append_assoc, ← h, List.drop_left]
    rfl
  have hm : (fun r => rowMatches aff r conds (args ++ [Arg.int limit] ++ [Arg.int offset]))
      = (fun r => rowMatches aff r conds args) := by
    funext r
    rw [List.append_assoc]
    exact rowMatches_append aff r conds args _ h
  have hl : (args ++ [Arg.int limit] ++ [Arg.int offset]).length = conds.length + 1 + 1 := by
    simp [h]
  simp only [runSelect, paramCount, hl, hd, boundValue, hm]
  simp

theorem scanReports_rows (rs : List Row) (acc : List Report) :
    scanReports (rs.map (fun r => [Col.input_index, Col.output_index, Col.payload].map r.get)) acc
      = .ok (acc ++ rs.map reportOfRow) := by
  induction rs generalizing acc with
  | nil => simp [scanReports]
  | cons r rest ih =>
    have h1 := ih (acc ++ [reportOfRow r])
    simp only [List.map_cons, List.map_nil, Row.get] at h1 ⊢
    simp only [scanReports, scanInt, scanString]
    rw [show (⟨r.output_index, r.input_index, Hex2Bytes r.payload⟩ : Report) = reportOfRow r
      from rfl, h1]
    simp

theorem scanReports_rows_cons (rs : List Row) (acc : List Report) :
    scanReports (rs.map (fun r => [r.get Col.input_index, r.get Col.output_index,
        r.get Col.payload])) acc = .ok (acc ++ rs.map reportOfRow) :=
  scanReports_rows rs acc

/-! ## Count and FindAll on a valid filter list -/

theorem execute_countSql (db : Db) (filter : List (Option ConvenienceFilter))
    (hr : db.refuseRun (countSql filter) (filter.map eqArg) = none) :
    db.execute (countSql filter) (filter.map eqArg)
      = (.ok [[Val.int ((matchingRows db filter).length : Int)]],
          { db with log := db.log ++ [Event.run (countSql filter) (filter.map eqArg)] }) := by
  simp only [Db.execute, hr, parse_countSql]
  rw [runSelect_count _ _ _ _ (by simp)]
  rfl

theorem execute_pageSql (db : Db) (filter : List (Option ConvenienceFilter))
    (limit offset : Int)
    (hr : db.refuseRun (pageSql filter)
      (filter.map eqArg ++ [Arg.int limit, Arg.int offset]) = none) :
    db.execute (pageSql filter) (filter.map eqArg ++ [Arg.int limit, Arg.int offset])
      = (.ok (window limit offset ((sortRows (matchingRows db filter)).map
            (fun r => [Col.input_index, Col.output_index, Col.payload].map r.get))),
          { db with log := db.log ++ [Event.run (pageSql filter)
              (filter.map eqArg ++ [Arg.int limit, Arg.int offset])] }) := by
  simp only [Db.execute, hr, parse_pageSql]
  have h2 := runSelect_page db.reports db.affinity
    [Col.input_index, Col.output_index, Col.payload] ((filter.map fieldName).map colFor)
    (filter.map eqArg) limit offset (by simp)
  simp only [List.append_assoc, List.singleton_append] at h2
  rw [h2]
  rfl

theorem Count_of_valid (db : Db) (filter : List (Option ConvenienceFilter))
    (hv : ∀ e ∈ filter, validFilter e = true)
    (hp : db.refusePrepare (countSql filter) = none)
    (hr : db.refuseRun (countSql filter) (filter.map eqArg) = none)
    (hn : (matchingRows db filter).length < 2 ^ 64) :
    Count db filter = .ret (((matchingRows db filter).length, none),
      { db with log := db.log ++ [Event.prepare (countSql filter),
          Event.run (countSql filter) (filter.map eqArg)] }) := by
  have hr1 : ({ db with log := db.log ++ [Event.prepare (countSql filter)] } : Db).refuseRun
      (countSql filter) (filter.map eqArg) = none := hr
  have hx := execute_countSql _ filter hr1
  unfold matchingRows at hn hx
  simp only [Count, transformToQuery_of_valid filter hv, Preparex]
  rw [show "SELECT count(*) FROM reports " ++ expectedFragment (filter.map fieldName)
    = countSql filter from rfl]
  simp only [hp, parse_countSql, stmtGet, hx, scanUint64]
  simp only [Int.toNat_ofNat, Int.ofNat_zero_le, true_and, hn, if_true, matchingRows,
    List.append_assoc, List.singleton_append]

theorem Count_success (db db1 : Db) (filter : List (Option ConvenienceFilter)) (total : Nat)
    (h : Count db filter = .ret ((total, none), db1)) :
    (∀ e ∈ filter, validFilter e = true) ∧
    db.refusePrepare (countSql filter) = none ∧
    db.refuseRun (countSql filter) (filter.map eqArg) = none ∧
    (matchingRows db filter).length < 2 ^ 64 ∧
    total = (matchingRows db filter).length ∧
    db1 = { db with log := db.log ++ [Event.prepare (countSql filter),
          Event.run (countSql filter) (filter.map eqArg)] } := by
  have hv : ∀ e ∈ filter, validFilter e = true := by
    cases ht : transformToQuery filter with
    | panic msg => simp [Count, ht] at h
    | ret r =>
      obtain ⟨w, a, oe⟩ := r
      cases oe with
      | some err => simp [Count, ht] at h
      | none => exact transformToQuery_ok_valid filter w a ht
  cases hp : db.refusePrepare (countSql filter) with
  | some e =>
    simp only [Count, transformToQuery_of_valid filter hv, Preparex] at h
    rw [show "SELECT count(*) FROM reports " ++ expectedFragment (filter.map fieldName)
      = countSql filter from rfl] at h
    simp [hp] at h
  | none =>
    cases hr : db.refuseRun (countSql filter) (filter.map eqArg) with
    | some e =>
      simp only [Count, transformToQuery_of_valid filter hv, Preparex] at h
      rw [show "SELECT count(*) FROM reports " ++ expectedFragment (filter.map fieldName)
        = countSql filter from rfl] at h
      simp [hp, parse_countSql, stmtGet, Db.execute, hr] at h
    | none =>
      by_cases hn : (matchingRows db filter).length < 2 ^ 64
      · rw [Count_of_valid db filter hv hp hr hn] at h
        simp only [Go.ret.injEq, Prod.mk.injEq, and_true] at h
        exact ⟨hv, rfl, rfl, hn, h.1.symm, h.2.symm⟩
      · have hr1 : ({ db with log := db.log ++ [Event.prepare (countSql filter)] } : Db).refuseRun
            (countSql filter) (filter.map eqArg) = none := hr
        have hx := execute_countSql _ filter hr1
        unfold matchingRows at hn hx
        simp only [Count, transformToQuery_of_valid filter hv, Preparex] at h
        rw [show "SELECT count(*) FROM reports " ++ expectedFragment (filter.map fieldName)
          = countSql filter from rfl] at h
        simp only [hp, parse_countSql, stmtGet, hx, scanUint64] at h
        simp only [Int.toNat_ofNat, Int.ofNat_zero_le, true_and, hn, if_false] at h
        simp at h

theorem pageSql_eq (filter : List (Option ConvenienceFilter)) :
    "SELECT input_index, output_index, payload FROM reports "
      ++ expectedFragment (filter.map fieldName)
      ++ "ORDER BY input_index ASC, output_index ASC " ++ "LIMIT ? " ++ "OFFSET ? "
      = pageSql filter := rfl

theorem FindAll_success (cp : PageCalculator) (db db1 : Db) (first last : Option Int)
    (after before : Option String) (filter : List (Option ConvenienceFilter))
    (page : PageResult)
    (h : FindAll cp db first last after before filter = .ret ((some page, none), db1)) :
    (∀ e ∈ filter, validFilter e = true) ∧
    (matchingRows db filter).length < 2 ^ 64 ∧
    Count db filter = .ret (((matchingRows db filter).length, none),
      { db with log := db.log ++ [Event.prepare (countSql filter),
          Event.run (countSql filter) (filter.map eqArg)] }) ∧
    ∃ offset limit : Int,
      cp first last after before (intOfUint64 (matchingRows db filter).length)
        = (offset, limit, none) ∧
      db.refusePrepare (pageSql filter) = none ∧
      db.refuseRun (pageSql filter) (filter.map eqArg ++ [Arg.int limit, Arg.int offset])
        = none ∧
      page = ⟨(window limit offset (sortRows (matchingRows db filter))).map reportOfRow,
        (matchingRows db filter).length, uint64OfInt offset⟩ ∧
      db1 = { db with log := db.log ++ [Event.prepare (countSql filter),
          Event.run (countSql filter) (filter.map eqArg), Event.prepare (pageSql filter),
          Event.run (pageSql filter) (filter.map eqArg ++ [Arg.int limit, Arg.int offset])] } := by
  cases hc : Count db filter with
  | panic msg => simp [FindAll, hc] at h
  | ret r =>
    obtain ⟨⟨total, oe⟩, c1⟩ := r
    cases oe with
    | some err => simp [FindAll, hc] at h
    | none =>
      obtain ⟨hv, hp, hr, hn, rfl, rfl⟩ := Count_success db c1 filter total hc
      refine ⟨hv, hn, rfl, ?_⟩
      simp only [FindAll, hc, transformToQuery_of_valid filter hv, pageSql_eq] at h
      rcases hcp : cp first last after before (intOfUint64 (matchingRows db filter).length)
        with ⟨offset, limit, oe⟩
      rw [hcp] at h
      cases oe with
      | some err => simp at h
      | none =>
        refine ⟨offset, limit, rfl, ?_⟩
        simp only [Preparex, parse_pageSql, List.append_assoc, List.singleton_append] at h
        cases hpp : db.refusePrepare (pageSql filter) with
        | some e => simp [hpp] at h
        | none =>
          simp only [hpp, stmtQueryx] at h
          cases hrr : db.refuseRun (pageSql filter)
              (filter.map eqArg ++ [Arg.int limit, Arg.int offset]) with
          | some e => simp [Db.execute, hrr] at h
          | none =>
            simp [execute_pageSql, hrr, window_map, scanReports_rows_cons, matchingRows] at h
            simp only [matchingRows, List.map_map]
            exact ⟨trivial, trivial, h.1.symm, h.2.symm⟩

/-! ## Ordering -/

theorem rowLe_total (a b : Row) (h : rowLe a b = false) : rowLe b a = true := by
  simp only [rowLe, Bool.or_eq_false_iff, Bool.and_eq_false_iff, decide_eq_false_iff_not,
    Bool.or_eq_true, Bool.and_eq_true, decide_eq_true_eq] at *
  omega

theorem rowLe_trans (a b c : Row) (h1 : rowLe a b = true) (h2 : rowLe b c = true) :
    rowLe a c = true := by
  simp only [rowLe, Bool.or_eq_true, Bool.and_eq_true, decide_eq_true_eq] at *
  omega

theorem mem_insertRow (r x : Row) (l : List Row) : x ∈ insertRow r l ↔ x = r ∨ x ∈ l := by
  induction l with
  | nil => simp [insertRow]
  | cons s rest ih =>
    unfold insertRow
    split
    · simp
    · simp only [List.mem_cons, ih]
      tauto

theorem length_insertRow (r : Row) (l : List Row) : (insertRow r l).length = l.length + 1 := by
  induction l with
  | nil => simp [insertRow]
  | cons s rest ih =>
    unfold insertRow
    split <;> simp [ih]

theorem length_sortRows (l : List Row) : (sortRows l).length = l.length := by
  induction l with
  | nil => simp [sortRows]
  | cons r rest ih => simp [sortRows, length_insertRow, ih]

theorem pairwise_insertRow (r : Row) (l : List Row)
    (h : l.Pairwise (fun a b => rowLe a b = true)) :
    (insertRow r l).Pairwise (fun a b => rowLe a b = true) := by
  induction l with
  | nil => simp [insertRow]
  | cons s rest ih =>
    rw [List.pairwise_cons] at h
    unfold insertRow
    split
    · rename_i hrs
      refine List.pairwise_cons.2 ⟨?_, List.pairwise_cons.2 h⟩
      intro x hx
      rcases List.mem_cons.1 hx with rfl | hx
      · exact hrs
      · exact rowLe_trans _ _ _ hrs (h.1 x hx)
    · rename_i hrs
      refine List.pairwise_cons.2 ⟨?_, ih h.2⟩
      intro x hx
      rcases (mem_insertRow r x rest).1 hx with rfl | hx
      · exact rowLe_total _ _ (by simpa using hrs)
      · exact h.1 x hx

theorem pairwise_sortRows (l : List Row) :
    (sortRows l).Pairwise (fun a b => rowLe a b = true) := by
  induction l with
  | nil => simp [sortRows]
  | cons r rest ih => exact pairwise_insertRow r _ ih

theorem window_sublist {α : Type} (limit offset : Int) (xs : List α) :
    (window limit offset xs).Sublist xs := by
  unfold window
  split
  · exact List.drop_sublist _ _
  · exact (List.take_sublist _ _).trans (List.drop_sublist _ _)

theorem reportLe_of_rowLe (a b : Row) (h : rowLe a b = true) :
    reportLe (reportOfRow a) (reportOfRow b) := by
  simp only [rowLe, Bool.or_eq_true, Bool.and_eq_true, decide_eq_true_eq] at h
  exact h

theorem pairwise_page_rows (limit offset : Int) (l : List Row) :
    ((window limit offset (sortRows l)).map reportOfRow).Pairwise reportLe := by
  rw [List.pairwise_map]
  exact ((pairwise_sortRows l).sublist (window_sublist limit offset _)).imp
    (fun h => reportLe_of_rowLe _ _ h)

theorem intOfUint64_nonneg (n : Nat) (hn : n < 2 ^ 64) (h : 0 ≤ intOfUint64 n) :
    intOfUint64 n = (n : Int) := by
  unfold intOfUint64 at *
  rw [Nat.mod_eq_of_lt hn] at *
  split
  · rfl
  · rename_i hlt
    rw [if_neg hlt] at h
    omega

theorem uint64OfInt_of_nonneg (i : Int) (h0 : 0 ≤ i) (h1 : i < ((2 ^ 64 : Nat) : Int)) :
    uint64OfInt i = i.toNat := by
  unfold uint64OfInt
  rw [Int.emod_eq_of_lt h0 h1]

theorem forwardPage_window (first last : Option Int) (after before : Option String)
    (total offset limit : Int) (h : forwardPage first last after before total = (offset, limit, none)) :
    0 ≤ offset ∧ offset ≤ total ∧ 0 ≤ limit := by
  unfold forwardPage at h
  split at h
  · simp at h
  · cases first with
    | none =>
      simp only [Prod.mk.injEq, and_true] at h
      omega
    | some n =>
      simp only at h
      split at h
      · simp at h
      · simp only [Prod.mk.injEq, and_true] at h
        omega

/-- C5: whenever `FindAll` succeeds, the `Total` of the returned page is the
value `Count` returns for the same filter list on that store, before the call
and after it; the call leaves the table unchanged. -/
theorem C5_total_equals_count (cp : PageCalculator) (db db1 : Db) (first last : Option Int)
    (after before : Option String) (filter : List (Option ConvenienceFilter))
    (page : PageResult)
    (h : FindAll cp db first last after before filter = .ret ((some page, none), db1)) :
    (∃ d, Count db filter = .ret ((page.Total, none), d)) ∧
    (∃ d, Count db1 filter = .ret ((page.Total, none), d)) ∧
    db1.reports = db.reports := by
  obtain ⟨hv, hn, hc, offset, limit, _, _, _, rfl, rfl⟩ :=
    FindAll_success cp db db1 first last after before filter page h
  obtain ⟨_, hp, hr, _, _, _⟩ := Count_success db _ filter _ hc
  exact ⟨⟨_, hc⟩, ⟨_, Count_of_valid _ filter hv hp hr hn⟩, rfl⟩

/-- C5 (witness): the sample store, `first = 2` and the filter
`InputIndex = "3"`. -/
theorem C5_total_equals_count_witness :
    FindAll forwardPage sampleDb (some 2) none none none sampleFilter
        = .ret ((some samplePage, none), sampleDbAfter) ∧
    ((∃ d, Count sampleDb sampleFilter = .ret ((samplePage.Total, none), d)) ∧
      (∃ d, Count sampleDbAfter sampleFilter = .ret ((samplePage.Total, none), d)) ∧
      sampleDbAfter.reports = sampleDb.reports) :=
  ⟨rfl, C5_total_equals_count forwardPage sampleDb sampleDbAfter (some 2) none none none
    sampleFilter samplePage rfl⟩

/-- C8: whenever `FindAll` succeeds with a pagination calculator whose windows
satisfy `0 <= offset <= total` and `limit >= 0`, the returned page satisfies
`Offset + len(Rows) <= Total`, and `len(Rows) <= limit` for the window
`(offset, limit)` the calculator returned for this call. -/
theorem C8_page_within_window (cp : PageCalculator) (db db1 : Db) (first last : Option Int)
    (after before : Option String) (filter : List (Option ConvenienceFilter))
    (page : PageResult)
    (hcp : ∀ (f l : Option Int) (a b : Option String) (total offset limit : Int),
      cp f l a b total = (offset, limit, none) → 0 ≤ offset ∧ offset ≤ total ∧ 0 ≤ limit)
    (h : FindAll cp db first last after before filter = .ret ((some page, none), db1)) :
    page.Offset + page.Rows.length ≤ page.Total ∧
    ∃ offset limit : Int,
      cp first last after before (intOfUint64 page.Total) = (offset, limit, none) ∧
      (page.Rows.length : Int) ≤ limit ∧ (page.Offset : Int) = offset := by
  obtain ⟨hv, hn, hc, offset, limit, hw, _, _, rfl, rfl⟩ :=
    FindAll_success cp db db1 first last after before filter page h
  obtain ⟨ho0, hot, hl0⟩ := hcp _ _ _ _ _ _ _ hw
  have hti := intOfUint64_nonneg _ hn (le_trans ho0 hot)
  rw [hti] at hot
  have hlt : offset < ((2 ^ 64 : Nat) : Int) := by
    have : ((matchingRows db filter).length : Int) < ((2 ^ 64 : Nat) : Int) := by
      exact_mod_cast hn
    omega
  have hoff : uint64OfInt offset = offset.toNat := uint64OfInt_of_nonneg offset ho0 hlt
  have hle : offset.toNat ≤ (sortRows (matchingRows db filter)).length := by
    rw [length_sortRows]; omega
  have h1 := window_length_add_le limit offset (sortRows (matchingRows db filter)) hle
  rw [length_sortRows] at h1
  refine ⟨?_, offset, limit, hw, ?_, ?_⟩
  · simpa [hoff] using h1
  · simpa using window_length_le limit offset (sortRows (matchingRows db filter)) hl0
  · simp only [hoff]
    omega

/-- C8 (witness): the sample store with the forward calculator, `first = 2`
and the filter `InputIndex = "3"`. -/
theorem C8_page_within_window_witness :
    (∀ (f l : Option Int) (a b : Option String) (total offset limit : Int),
      forwardPage f l a b total = (offset, limit, none) →
        0 ≤ offset ∧ offset ≤ total ∧ 0 ≤ limit) ∧
    FindAll forwardPage sampleDb (some 2) none none none sampleFilter
        = .ret ((some samplePage, none), sampleDbAfter) ∧
    (samplePage.Offset + samplePage.Rows.length ≤ samplePage.Total ∧
      ∃ offset limit : Int,
        forwardPage (some 2) none none none (intOfUint64 samplePage.Total)
          = (offset, limit, none) ∧
        (samplePage.Rows.length : Int) ≤ limit ∧ (samplePage.Offset : Int) = offset) :=
  ⟨forwardPage_window, rfl,
    C8_page_within_window forwardPage sampleDb sampleDbAfter (some 2) none none none
      sampleFilter samplePage forwardPage_window rfl⟩

/-- C9: whenever `FindAll` succeeds, the `Rows` of the page are non-decreasing
in `(InputIndex, Index)` lexicographic order; the select sent to the store is
the filter fragment of `transformToQuery` followed by the fixed
`ORDER BY input_index ASC, output_index ASC` and then `LIMIT ?` and `OFFSET ?`;
and the reports are made, one by one and in the same order, from the rows the
store returns for that select. -/
theorem C9_rows_ordered (cp : PageCalculator) (db db1 : Db) (first last : Option Int)
    (after before : Option String) (filter : List (Option ConvenienceFilter))
    (page : PageResult)
    (h : FindAll cp db first last after before filter = .ret ((some page, none), db1)) :
    page.Rows.Pairwise reportLe ∧
    ∃ (wher : String) (args : List Arg) (offset limit : Int) (returned : List Row),
      transformToQuery filter = .ret (wher, args, none) ∧
      db1.log.getLast? = some (Event.run
        ("SELECT input_index, output_index, payload FROM reports " ++ wher
          ++ "ORDER BY input_index ASC, output_index ASC " ++ "LIMIT ? " ++ "OFFSET ? ")
        (args ++ [Arg.int limit, Arg.int offset])) ∧
      (db.execute
        ("SELECT input_index, output_index, payload FROM reports " ++ wher
          ++ "ORDER BY input_index ASC, output_index ASC " ++ "LIMIT ? " ++ "OFFSET ? ")
        (args ++ [Arg.int limit, Arg.int offset])).1
        = .ok (returned.map
            (fun r => [Val.int r.input_index, Val.int r.output_index, Val.text r.payload])) ∧
      page.Rows = returned.map reportOfRow := by
  obtain ⟨hv, hn, hc, offset, limit, hw, hpp, hrr, rfl, rfl⟩ :=
    FindAll_success cp db db1 first last after before filter page h
  refine ⟨pairwise_page_rows limit offset _, _, _, offset, limit,
    window limit offset (sortRows (matchingRows db filter)),
    transformToQuery_of_valid filter hv, ?_, ?_, rfl⟩
  · simp [pageSql]
  · rw [pageSql_eq, execute_pageSql db filter limit offset hrr, window_map]
    rfl

/-- C9 (witness): the sample store, whose rows were inserted out of order. -/
theorem C9_rows_ordered_witness :
    FindAll forwardPage sampleDb (some 2) none none none sampleFilter
        = .ret ((some samplePage, none), sampleDbAfter) ∧
    samplePage.Rows.Pairwise reportLe :=
  ⟨rfl, (C9_rows_ordered forwardPage sampleDb sampleDbAfter (some 2) none none none
    sampleFilter samplePage rfl).1⟩

/-! ## Create and lookup by key -/

/-- C7 (amended): for every report, `Create` returns that report unchanged with
a nil error when the store accepts the insert; when the store rejects the
insert with an error, `Create` does not return: `MustExec` panics with that
error; and `Create` never returns a non-nil error. -/
theorem C7_create_returns_or_panics (db : Db) (report : Report) :
    (∀ db1, Exec db insertSql [Arg.int report.Index, Arg.str (Bytes2Hex report.Payload),
        Arg.int report.InputIndex] = (none, db1) →
      Create db report = .ret ((report, none), db1)) ∧
    (∀ err db1, Exec db insertSql [Arg.int report.Index, Arg.str (Bytes2Hex report.Payload),
        Arg.int report.InputIndex] = (some err, db1) →
      Create db report = .panic err) ∧
    (∀ r err db1, Create db report ≠ .ret ((r, some err), db1)) := by
  refine ⟨?_, ?_, ?_⟩
  · intro db1 h
    simp [Create, MustExec, h]
  · intro err db1 h
    simp [Create, MustExec, h]
  · intro r err db1 h
    unfold Create MustExec at h
    split at h
    · simp at h
    · simp at h

/-- C7 (witness): the sample store accepts the insert and `Create` returns the
report; the offline store rejects it and `Create` panics. -/
theorem C7_create_returns_or_panics_witness :
    (∃ db1, Create sampleDb beefReport = .ret ((beefReport, none), db1)) ∧
    Create offlineDb beefReport = .panic "database is locked" :=
  ⟨⟨_, (C7_create_returns_or_panics sampleDb beefReport).1 _ rfl⟩,
    (C7_create_returns_or_panics offlineDb beefReport).2.1 _ _ rfl⟩

/-- C7 (counterexample): the offline store rejects the insert of the report
`(3, 2, 0xBEEF)` with an error, and `Create` returns no error to its caller: it
panics. -/
theorem C7_counterexample :
    (Exec offlineDb insertSql [Arg.int 2, Arg.str "beef", Arg.int 3]).1
        = some "database is locked" ∧
    Create offlineDb beefReport = .panic "database is locked" ∧
    ¬ ∃ r err db1, Create offlineDb beefReport = .ret ((r, some err), db1) := by
  refine ⟨rfl, rfl, ?_⟩
  rintro ⟨r, err, db1, h⟩
  have h2 : Create offlineDb beefReport = .panic "database is locked" := rfl
  rw [h2] at h
  cases h

/-- C10 (the code at the failing inputs): `GetNoticeRepository` is guarded by
`c.syncRepository`.  Whenever the synchronizer repository is already built it
returns `c.noticeRepository` as it stands, nil when the notice repository was
never built; whenever the synchronizer repository is not built it constructs a
new notice repository, also over one built before.  On a fresh container,
`GetSyncRepository` followed by `GetNoticeRepository` returns nil, and two
calls of `GetNoticeRepository` construct two repositories at different
addresses. -/
theorem C10_notice_repository_guard :
    (∀ (ct : Provisioning) (c : Container) (h : Heap) (s : Ptr),
      c.syncRepository = some s →
        GetNoticeRepository ct c h = .ret (c.noticeRepository, c, h)) ∧
    (∀ (c : Container) (h : Heap) (d : Ptr), c.syncRepository = none → c.db = some d →
      GetNoticeRepository provisioningOk c h
        = .ret (some h.next, { c with noticeRepository := some h.next },
            (h.alloc .noticeRepository []).2)) ∧
    syncThenNotice
      = .ret (none, { NewContainer 0 with syncRepository := some 1 },
          { next := 2, built := [⟨.syncRepository, 1, []⟩] }) ∧
    noticeTwice
      = .ret (some 2, { NewContainer 0 with noticeRepository := some 2 },
          { next := 3, built := [⟨.noticeRepository, 1, []⟩, ⟨.noticeRepository, 2, []⟩] }) := by
  refine ⟨?_, ?_, rfl, rfl⟩
  · intro ct c h s hs
    simp [GetNoticeRepository, hs]
  · intro c h d hs hd
    simp [GetNoticeRepository, hs, hd, provisioningOk, Heap.alloc]

end Nonodo
